import Mathlib

/-!
Verification development for the Dreamer diagram editor.

This file shallowly embeds the canvas data model (`src/types/index.ts`),
the elements store (`elementsStore`), the viewport store (`canvasStore`),
the geometry helpers (`utils/geometry.ts`) and the canvas interaction
handlers (`Canvas.tsx`, `SelectionHandles`), and proves the specified
properties of connector anchors, movement, deletion, history, zoom,
resize and gesture handling.

Modelling conventions:
* JavaScript numbers are modelled as exact rationals (`ℚ`).
* `Math.hypot` returns the Euclidean length; the code only ever compares
  hypot values with `<` and `<=`, and `Real.sqrt` is strictly monotone on
  nonnegative reals, so those comparisons are modelled by the same
  comparisons on squared distances (`dist2`), which take exactly the same
  branches over exact arithmetic.
* `Infinity` (the initial `minDistance` in `calculateBestAnchors`) is
  modelled by `Option ℚ` with `none` standing for `Infinity`.
* `uuidv4()` produces a fresh identifier; operations take the generated
  identifier as an explicit argument.
* `JSON.parse(JSON.stringify(x))` is a deep structural copy, which on
  immutable Lean values is the identity.
* `localStorage` / auto-save side effects are I/O and do not touch the
  store state that the claims are about; they are not part of the state
  transformers.
-/

namespace Dreamer

/-- A 2-D point (`src/types`: `Point`). -/
@[ext] structure Point where
  x : ℚ
  y : ℚ
  deriving DecidableEq

/-- An axis-aligned rectangle (`src/types`: `Rect`). -/
structure Rect where
  x : ℚ
  y : ℚ
  width : ℚ
  height : ℚ
  deriving DecidableEq

/-- Source `src/types`: `ShapeType`. -/
inductive ShapeType where
  | rectangle
  | roundedRectangle
  | ellipse
  deriving DecidableEq

/-- Source `src/types`: `AnchorPosition`. -/
inductive AnchorPosition where
  | top
  | right
  | bottom
  | left
  deriving DecidableEq

/-- Source `src/types`: `ShapeStyle`. -/
structure ShapeStyle where
  fillColor : String
  strokeColor : String
  strokeWidth : ℚ
  borderRadius : Option ℚ
  shadow : Option Bool
  deriving DecidableEq

/-- Source `src/types`: `TextStyle`. -/
structure TextStyle where
  color : String
  fontSize : ℚ
  fontFamily : String
  bold : Bool
  italic : Bool
  align : String
  deriving DecidableEq

/-- Source `src/types`: `ConnectorStyle`. -/
structure ConnectorStyle where
  strokeColor : String
  strokeWidth : ℚ
  lineStyle : String
  arrowStart : Bool
  arrowEnd : Bool
  deriving DecidableEq

/-- Source `src/types`: `DrawingStyle`. -/
structure DrawingStyle where
  strokeColor : String
  strokeWidth : ℚ
  opacity : ℚ
  deriving DecidableEq

/-- The variant part of the `CanvasElement` union
(`ShapeElement | TextElement | DrawingElement`). -/
inductive ElementData where
  | shape (shapeType : ShapeType) (style : ShapeStyle) (text : String) (textStyle : TextStyle)
  | text (text : String) (textStyle : TextStyle)
  | drawing (points : List Point) (style : DrawingStyle)
  deriving DecidableEq

/-- A canvas element: the `BaseElement` fields shared by the union,
plus the variant data. -/
structure CanvasElement where
  id : String
  x : ℚ
  y : ℚ
  width : ℚ
  height : ℚ
  rotation : Option ℚ
  locked : Option Bool
  data : ElementData
  deriving DecidableEq

/-- Source `src/types`: `ConnectorElement`. -/
structure ConnectorElement where
  id : String
  sourceId : String
  targetId : String
  sourceAnchor : AnchorPosition
  targetAnchor : AnchorPosition
  style : ConnectorStyle
  waypoints : Option (List Point)
  deriving DecidableEq

/-- Source `src/types`: `HistoryEntry`. -/
structure HistoryEntry where
  elements : List CanvasElement
  connectors : List ConnectorElement
  deriving DecidableEq

/-- Source `src/types`: `ViewportState`. -/
structure ViewportState where
  panX : ℚ
  panY : ℚ
  zoom : ℚ
  deriving DecidableEq

/-- Source `src/types`: `DEFAULT_SHAPE_STYLE` (`strokeWidth: 1.5`, written as
`mkRat 3 2` so that the exact value is kernel-computable). -/
def defaultShapeStyle : ShapeStyle :=
  { fillColor := "#ffffff", strokeColor := "#cbd5e1", strokeWidth := mkRat 3 2,
    borderRadius := some 8, shadow := some false }

/-- Source `src/types`: `DEFAULT_TEXT_STYLE`. -/
def defaultTextStyle : TextStyle :=
  { color := "#334155", fontSize := 14, fontFamily := "Inter, system-ui, sans-serif",
    bold := false, italic := false, align := "center" }

/-- Source `src/types`: `DEFAULT_CONNECTOR_STYLE`. -/
def defaultConnectorStyle : ConnectorStyle :=
  { strokeColor := "#94a3b8", strokeWidth := mkRat 3 2, lineStyle := "solid",
    arrowStart := false, arrowEnd := true }

/-- Source `src/types`: `DEFAULT_DRAWING_STYLE`. -/
def defaultDrawingStyle : DrawingStyle :=
  { strokeColor := "#334155", strokeWidth := 2, opacity := 1 }

/-- The mutable state of `useElementsStore` (persistence context fields
included; the async save side effects are I/O and not modelled). -/
structure ElementsStore where
  elements : List CanvasElement
  connectors : List ConnectorElement
  selectedIds : List String
  history : List HistoryEntry
  historyIndex : ℤ
  clipboard : List CanvasElement
  currentDiagramId : Option String
  currentDiagramName : Option String
  isDirty : Bool
  deriving DecidableEq

/-- The store's initial state (`elements: [], connectors: [], selectedIds: [],
history: [], historyIndex: -1, clipboard: []`). -/
def initialElementsStore : ElementsStore :=
  { elements := [], connectors := [], selectedIds := [], history := [],
    historyIndex := -1, clipboard := [], currentDiagramId := none,
    currentDiagramName := none, isDirty := false }

/-- Squared Euclidean distance between two points.  The source compares
`Math.hypot(b.x - a.x, b.y - a.y)` values; comparing squared distances
takes the same branches (see the file header). -/
def dist2 (a b : Point) : ℚ :=
  (b.x - a.x) ^ 2 + (b.y - a.y) ^ 2

/-- Source `getAnchorPoints` (duplicated in `elementsStore` and
`utils/geometry.ts`): the record of the four edge-midpoint anchors,
modelled as a function from `AnchorPosition`. -/
def getAnchorPoints (element : CanvasElement) : AnchorPosition → Point
  | .top => ⟨element.x + element.width / 2, element.y⟩
  | .right => ⟨element.x + element.width, element.y + element.height / 2⟩
  | .bottom => ⟨element.x + element.width / 2, element.y + element.height⟩
  | .left => ⟨element.x, element.y + element.height / 2⟩

/-- The enumeration order of anchors in `calculateBestAnchors`:
`['top', 'right', 'bottom', 'left']`. -/
def anchorEnumeration : List AnchorPosition :=
  [.top, .right, .bottom, .left]

/-- The 16 `(sPos, tPos)` combinations in loop order (outer loop over the
source anchors, inner loop over the target anchors). -/
def anchorPairs : List (AnchorPosition × AnchorPosition) :=
  anchorEnumeration.flatMap fun sPos => anchorEnumeration.map fun tPos => (sPos, tPos)

/-- Squared distance between the chosen source anchor of `source` and the
chosen target anchor of `target` (the quantity `distance` of the loop in
`calculateBestAnchors`, squared). -/
def anchorDist2 (source target : CanvasElement) (pr : AnchorPosition × AnchorPosition) : ℚ :=
  dist2 (getAnchorPoints source pr.1) (getAnchorPoints target pr.2)

/-- Source `distance < minDistance`, where `minDistance : Option ℚ` models the
running minimum initialised to `Infinity` (`none`). -/
def ltMinDistance (d : ℚ) : Option ℚ → Bool
  | none => true
  | some m => decide (d < m)

/-- Source `calculateBestAnchors` (elementsStore): fold over all 16 anchor
combinations keeping the first strict improvement, starting from
`bestSource = 'right'`, `bestTarget = 'left'`, `minDistance = Infinity`. -/
def calculateBestAnchors (source target : CanvasElement) :
    AnchorPosition × AnchorPosition :=
  (anchorPairs.foldl
    (fun acc pr =>
      if ltMinDistance (anchorDist2 source target pr) acc.2 then
        (pr, some (anchorDist2 source target pr))
      else acc)
    ((AnchorPosition.right, AnchorPosition.left), none)).1

/-- Source `MAX_HISTORY = 50`. -/
def MAX_HISTORY : ℕ := 50

/-- JavaScript `l.slice(0, e)` (an end index that is negative counts from
the end of the array, clamped at 0; an end index past the end takes the
whole array). -/
def sliceTo {α : Type} (l : List α) (e : ℤ) : List α :=
  l.take (if e < 0 then ((l.length : ℤ) + e).toNat else e.toNat)

/-- The deep snapshot `{elements, connectors}` taken by `pushHistory`. -/
def mkHistoryEntry (s : ElementsStore) : HistoryEntry :=
  { elements := s.elements, connectors := s.connectors }

/-- Source `pushHistory`: truncate the redo tail, append a snapshot, `shift()`
the oldest entry when over `MAX_HISTORY`, point the index at the tail. -/
def pushHistory (s : ElementsStore) : ElementsStore :=
  let newHistory := sliceTo s.history (s.historyIndex + 1) ++ [mkHistoryEntry s]
  let newHistory2 := if MAX_HISTORY < newHistory.length then newHistory.drop 1 else newHistory
  { s with history := newHistory2, historyIndex := (newHistory2.length : ℤ) - 1 }

/-- Source `undo`: no-op when `historyIndex <= 0`, otherwise restore the entry
at `historyIndex - 1` (the out-of-range arm is unreachable when the index
stays inside the history, which `pushHistory` and `redo` maintain). -/
def undo (s : ElementsStore) : ElementsStore :=
  if s.historyIndex ≤ 0 then s
  else
    match s.history.get? (s.historyIndex - 1).toNat with
    | none => s
    | some entry =>
        { s with elements := entry.elements, connectors := entry.connectors,
                 historyIndex := s.historyIndex - 1, selectedIds := [] }

/-- Source `redo`: no-op when `historyIndex >= history.length - 1`, otherwise
restore the entry at `historyIndex + 1`. -/
def redo (s : ElementsStore) : ElementsStore :=
  if (s.history.length : ℤ) - 1 ≤ s.historyIndex then s
  else
    match s.history.get? (s.historyIndex + 1).toNat with
    | none => s
    | some entry =>
        { s with elements := entry.elements, connectors := entry.connectors,
                 historyIndex := s.historyIndex + 1, selectedIds := [] }

/-- Source `setSelectedIds`. -/
def setSelectedIds (s : ElementsStore) (ids : List String) : ElementsStore :=
  { s with selectedIds := ids }

/-- Source `clearSelection`. -/
def clearSelection (s : ElementsStore) : ElementsStore :=
  { s with selectedIds := [] }

/-- Source `toggleSelection`. -/
def toggleSelection (s : ElementsStore) (id : String) : ElementsStore :=
  { s with selectedIds :=
      if s.selectedIds.contains id then s.selectedIds.filter (fun i => !(i == id))
      else s.selectedIds ++ [id] }

/-- The shape object constructed by `addShape` for a fresh `id`. -/
def newShapeElement (id : String) (shapeType : ShapeType) (x y : ℚ) : CanvasElement :=
  { id := id, x := x, y := y, width := 120, height := 80,
    rotation := none, locked := none,
    data := .shape shapeType defaultShapeStyle "" defaultTextStyle }

/-- Source `addShape(shapeType, x, y)`: insert the new shape, select only it,
push history, return the id. -/
def addShape (s : ElementsStore) (id : String) (shapeType : ShapeType) (x y : ℚ) :
    ElementsStore × String :=
  let shape := newShapeElement id shapeType x y
  let s1 := { s with elements := s.elements ++ [shape], selectedIds := [id] }
  (pushHistory s1, id)

/-- The text object constructed by `addText` for a fresh `id`. -/
def newTextElement (id : String) (x y : ℚ) : CanvasElement :=
  { id := id, x := x, y := y, width := 150, height := 40,
    rotation := none, locked := none,
    data := .text "Text" defaultTextStyle }

/-- Source `addText(x, y)`: insert the new text element, select only it,
push history, return the id. -/
def addText (s : ElementsStore) (id : String) (x y : ℚ) : ElementsStore × String :=
  let textElement := newTextElement id x y
  let s1 := { s with elements := s.elements ++ [textElement], selectedIds := [id] }
  (pushHistory s1, id)

/-- Source `Math.min(...)` over a nonempty list given as head and tail. -/
def listMin (a : ℚ) (l : List ℚ) : ℚ := l.foldl min a

/-- Source `Math.max(...)` over a nonempty list given as head and tail. -/
def listMax (a : ℚ) (l : List ℚ) : ℚ := l.foldl max a

/-- Source `addDrawing(points)`: no-op returning `''` on fewer than 2 points;
otherwise store the bounding box and the points relative to its origin,
select the new element and push history. -/
def addDrawing (s : ElementsStore) (id : String) (points : List Point) :
    ElementsStore × String :=
  match points with
  | p0 :: p1 :: rest =>
      let pts := p0 :: p1 :: rest
      let minX := listMin p0.x ((p1 :: rest).map Point.x)
      let minY := listMin p0.y ((p1 :: rest).map Point.y)
      let maxX := listMax p0.x ((p1 :: rest).map Point.x)
      let maxY := listMax p0.y ((p1 :: rest).map Point.y)
      let relativePoints := pts.map fun p => (⟨p.x - minX, p.y - minY⟩ : Point)
      let drawing : CanvasElement :=
        { id := id, x := minX, y := minY,
          width := max (maxX - minX) 1, height := max (maxY - minY) 1,
          rotation := none, locked := none,
          data := .drawing relativePoints defaultDrawingStyle }
      let s1 := { s with elements := s.elements ++ [drawing], selectedIds := [id] }
      (pushHistory s1, id)
  | _ => (s, "")

/-- Source `addConnector(sourceId, targetId)`: silently no-op unless both
endpoints resolve; otherwise create a connector with the best-anchor
pair, select it and push history. -/
def addConnector (s : ElementsStore) (id : String) (sourceId targetId : String) :
    ElementsStore × String :=
  match s.elements.find? (fun e => e.id == sourceId),
        s.elements.find? (fun e => e.id == targetId) with
  | some source, some target =>
      let best := calculateBestAnchors source target
      let connector : ConnectorElement :=
        { id := id, sourceId := sourceId, targetId := targetId,
          sourceAnchor := best.1, targetAnchor := best.2,
          style := defaultConnectorStyle, waypoints := none }
      let s1 := { s with connectors := s.connectors ++ [connector], selectedIds := [id] }
      (pushHistory s1, id)
  | _, _ => (s, "")

/-- Source `addConnectorWithAnchors(sourceId, sourceAnchor, targetId, targetAnchor)`:
silently no-op unless both endpoints resolve; otherwise create a connector
with the given anchors, select it and push history. -/
def addConnectorWithAnchors (s : ElementsStore) (id : String)
    (sourceId : String) (sourceAnchor : AnchorPosition)
    (targetId : String) (targetAnchor : AnchorPosition) : ElementsStore × String :=
  match s.elements.find? (fun e => e.id == sourceId),
        s.elements.find? (fun e => e.id == targetId) with
  | some _, some _ =>
      let connector : ConnectorElement :=
        { id := id, sourceId := sourceId, targetId := targetId,
          sourceAnchor := sourceAnchor, targetAnchor := targetAnchor,
          style := defaultConnectorStyle, waypoints := none }
      let s1 := { s with connectors := s.connectors ++ [connector], selectedIds := [id] }
      (pushHistory s1, id)
  | _, _ => (s, "")

/-- Source `deleteSelected`: drop the selected elements, the selected connectors
and every connector referencing a selected element, clear the selection,
push history. -/
def deleteSelected (s : ElementsStore) : ElementsStore :=
  let connectorIdsToDelete :=
    (s.connectors.filter fun c =>
      s.selectedIds.contains c.sourceId || s.selectedIds.contains c.targetId).map
      fun c => c.id
  let s1 := { s with
    elements := s.elements.filter fun el => !(s.selectedIds.contains el.id),
    connectors := s.connectors.filter fun c =>
      !(s.selectedIds.contains c.id) && !(connectorIdsToDelete.contains c.id),
    selectedIds := [] }
  pushHistory s1

/-- Source `deleteElement(id)`: drop the element and every connector whose own
id or either endpoint is `id`, remove `id` from the selection, push
history. -/
def deleteElement (s : ElementsStore) (id : String) : ElementsStore :=
  let s1 := { s with
    elements := s.elements.filter fun el => !(el.id == id),
    connectors := s.connectors.filter fun c =>
      !(c.id == id) && !(c.sourceId == id) && !(c.targetId == id),
    selectedIds := s.selectedIds.filter fun i => !(i == id) }
  pushHistory s1

/-- Source `moveElements(ids, dx, dy)`: translate the listed elements; connector
anchors are deliberately not recomputed here. -/
def moveElements (s : ElementsStore) (ids : List String) (dx dy : ℚ) : ElementsStore :=
  { s with elements := s.elements.map fun el =>
      if ids.contains el.id then { el with x := el.x + dx, y := el.y + dy } else el }

/-- Source `resizeElement(id, width, height, x?, y?)`: clamp width and height to
the 20px floor, optionally reposition the origin. -/
def resizeElement (s : ElementsStore) (id : String) (width height : ℚ)
    (xOpt yOpt : Option ℚ) : ElementsStore :=
  { s with elements := s.elements.map fun el =>
      if el.id == id then
        { el with width := max 20 width, height := max 20 height,
                  x := xOpt.getD el.x, y := yOpt.getD el.y }
      else el }

/-- The per-connector body of `updateConnectorAnchors`: recompute the
anchors when both endpoints resolve, otherwise leave the connector
alone. -/
def refreshConnector (elements : List CanvasElement) (connector : ConnectorElement) :
    ConnectorElement :=
  match elements.find? (fun e => e.id == connector.sourceId),
        elements.find? (fun e => e.id == connector.targetId) with
  | some source, some target =>
      let best := calculateBestAnchors source target
      { connector with sourceAnchor := best.1, targetAnchor := best.2 }
  | _, _ => connector

/-- Source `updateConnectorAnchors`: recompute every connector's anchors from
the current element positions. -/
def updateConnectorAnchors (s : ElementsStore) : ElementsStore :=
  { s with connectors := s.connectors.map (refreshConnector s.elements) }

/-- A sequence of edit-then-snapshot steps: each entry replaces the
model content and then calls `pushHistory`, the way gestures commit. -/
def pushHistorySeq (s : ElementsStore)
    (snaps : List (List CanvasElement × List ConnectorElement)) : ElementsStore :=
  snaps.foldl (fun t ec => pushHistory { t with elements := ec.1, connectors := ec.2 }) s

/-- Source `canvasStore`: `MIN_ZOOM = 0.1`. -/
def MIN_ZOOM : ℚ := 1 / 10

/-- Source `canvasStore`: `MAX_ZOOM = 5`. -/
def MAX_ZOOM : ℚ := 5

/-- Source `canvasStore`: the initial viewport. -/
def INITIAL_VIEWPORT : ViewportState := { panX := 0, panY := 0, zoom := 1 }

/-- Source `pan(dx, dy)`. -/
def pan (v : ViewportState) (dx dy : ℚ) : ViewportState :=
  { v with panX := v.panX + dx, panY := v.panY + dy }

/-- Source `zoomTo(newZoom, centerX, centerY)`: clamp the zoom, then solve for
the pan that keeps the canvas point under the cursor fixed. -/
def zoomTo (v : ViewportState) (newZoom centerX centerY : ℚ) : ViewportState :=
  let clampedZoom := max MIN_ZOOM (min MAX_ZOOM newZoom)
  let canvasX := (centerX - v.panX) / v.zoom
  let canvasY := (centerY - v.panY) / v.zoom
  { panX := centerX - canvasX * clampedZoom,
    panY := centerY - canvasY * clampedZoom,
    zoom := clampedZoom }

/-- Source `screenToCanvas(screenX, screenY)`. -/
def screenToCanvas (v : ViewportState) (screenX screenY : ℚ) : Point :=
  ⟨(screenX - v.panX) / v.zoom, (screenY - v.panY) / v.zoom⟩

/-- Source `canvasToScreen(canvasX, canvasY)`. -/
def canvasToScreen (v : ViewportState) (canvasX canvasY : ℚ) : Point :=
  ⟨canvasX * v.zoom + v.panX, canvasY * v.zoom + v.panY⟩

/-- Source `utils/geometry.ts`: `rectsIntersect`. -/
def rectsIntersect (a b : Rect) : Bool :=
  decide (a.x < b.x + b.width) && decide (b.x < a.x + a.width) &&
  decide (a.y < b.y + b.height) && decide (b.y < a.y + a.height)

/-- Source `utils/geometry.ts`: `pointInRect`. -/
def pointInRect (point : Point) (rect : Rect) : Bool :=
  decide (rect.x ≤ point.x) && decide (point.x ≤ rect.x + rect.width) &&
  decide (rect.y ≤ point.y) && decide (point.y ≤ rect.y + rect.height)

/-- Source `utils/geometry.ts`: `pointInEllipse`. -/
def pointInEllipse (point : Point) (rect : Rect) : Bool :=
  let cx := rect.x + rect.width / 2
  let cy := rect.y + rect.height / 2
  let rx := rect.width / 2
  let ry := rect.height / 2
  let dx := point.x - cx
  let dy := point.y - cy
  decide ((dx * dx) / (rx * rx) + (dy * dy) / (ry * ry) ≤ 1)

/-- Source `distance(a, b) <= threshold` where `distance` is `Math.hypot`:
over the reals, `sqrt d ≤ t` iff `0 ≤ t` and `d ≤ t²`. -/
def distWithin (a b : Point) (threshold : ℚ) : Bool :=
  decide (0 ≤ threshold) && decide (dist2 a b ≤ threshold ^ 2)

/-- Source `utils/geometry.ts`: `pointNearLine` (distance from a point to a
segment, compared against the threshold). -/
def pointNearLine (point lineStart lineEnd : Point) (threshold : ℚ) : Bool :=
  let dx := lineEnd.x - lineStart.x
  let dy := lineEnd.y - lineStart.y
  let lengthSq := dx * dx + dy * dy
  if lengthSq == 0 then
    distWithin point lineStart threshold
  else
    let t0 := ((point.x - lineStart.x) * dx + (point.y - lineStart.y) * dy) / lengthSq
    let t := max 0 (min 1 t0)
    distWithin point ⟨lineStart.x + t * dx, lineStart.y + t * dy⟩ threshold

/-- Source `utils/geometry.ts`: `pointNearPath` (any consecutive segment of the
polyline is near the point; fewer than 2 points is never a hit). -/
def pointNearPath (point : Point) (pathPoints : List Point) (threshold : ℚ) : Bool :=
  match pathPoints with
  | a :: b :: rest => pointNearLine point a b threshold || pointNearPath point (b :: rest) threshold
  | _ => false

/-- Source `utils/geometry.ts`: `normalizeRect`. -/
def normalizeRect (rect : Rect) : Rect :=
  { x := if rect.width < 0 then rect.x + rect.width else rect.x,
    y := if rect.height < 0 then rect.y + rect.height else rect.y,
    width := |rect.width|, height := |rect.height| }

/-- The per-element test of `Canvas.hitTest`: drawings by proximity to
the offset path, ellipse shapes by the ellipse equation, everything else
by the bounding rectangle. -/
def elementHit (zoom : ℚ) (canvasPoint : Point) (element : CanvasElement) : Bool :=
  match element.data with
  | .drawing points _ =>
      pointNearPath canvasPoint
        (points.map fun p => (⟨p.x + element.x, p.y + element.y⟩ : Point)) (8 / zoom)
  | .shape .ellipse _ _ _ =>
      pointInEllipse canvasPoint ⟨element.x, element.y, element.width, element.height⟩
  | _ => pointInRect canvasPoint ⟨element.x, element.y, element.width, element.height⟩

/-- Source `Canvas.hitTest`: elements in reverse order (topmost first), then
connectors by proximity to the anchor-to-anchor segment. -/
def hitTest (elements : List CanvasElement) (connectors : List ConnectorElement)
    (zoom : ℚ) (canvasPoint : Point) : Option String :=
  match elements.reverse.find? (elementHit zoom canvasPoint) with
  | some element => some element.id
  | none =>
      (connectors.find? fun connector =>
        match elements.find? (fun e => e.id == connector.sourceId),
              elements.find? (fun e => e.id == connector.targetId) with
        | some source, some target =>
            pointNearLine canvasPoint
              (getAnchorPoints source connector.sourceAnchor)
              (getAnchorPoints target connector.targetAnchor) (8 / zoom)
        | _, _ => false).map fun connector => connector.id

/-- Source `[...new Set(list)]`: deduplication keeping first occurrences. -/
def jsSetDedup (l : List String) : List String :=
  l.foldl (fun acc x => if acc.contains x then acc else acc ++ [x]) []

/-- The interaction state of the `Canvas` component that the embedded
handlers read and write.  The connector-drawing sub-machine
(`isDrawingConnector`, anchors) and the hover state are render-only or
out of scope for the claims and are not part of this fragment; the
container rectangle is taken at the origin, so client coordinates and
screen coordinates coincide. -/
structure CanvasUIState where
  viewport : ViewportState
  isDragging : Bool
  isPanning : Bool
  dragStart : Option Point
  selectionBox : Option Rect
  isDrawing : Bool
  drawingPoints : List Point
  store : ElementsStore
  deriving DecidableEq

/-- Source `Canvas.handleMouseDown`, the `activeTool === 'select'` path for a
plain left click (no middle button, no CMD/Ctrl pan, no pending
connector): hit an element to (re)select it and start dragging, or start
a selection box on empty canvas. -/
def handleMouseDownSelect (ui : CanvasUIState) (screenX screenY : ℚ)
    (shiftKey : Bool) : CanvasUIState :=
  let canvasPoint := screenToCanvas ui.viewport screenX screenY
  match hitTest ui.store.elements ui.store.connectors ui.viewport.zoom canvasPoint with
  | some hitId =>
      let store :=
        if shiftKey then toggleSelection ui.store hitId
        else if ui.store.selectedIds.contains hitId then ui.store
        else setSelectedIds ui.store [hitId]
      { ui with store := store, isDragging := true, dragStart := some canvasPoint }
  | none =>
      let store := if shiftKey then ui.store else clearSelection ui.store
      { ui with store := store, dragStart := some canvasPoint,
                selectionBox := some ⟨canvasPoint.x, canvasPoint.y, 0, 0⟩ }

/-- Source `Canvas.handleMouseMove`: pan, drag the selection with a per-frame
`moveElements` delta, grow the selection box, or record a freehand
point — in the source's branch order. -/
def handleMouseMoveFrame (ui : CanvasUIState) (screenX screenY : ℚ) : CanvasUIState :=
  let canvasPoint := screenToCanvas ui.viewport screenX screenY
  match ui.isPanning, ui.dragStart with
  | true, some start =>
      { ui with viewport := pan ui.viewport (screenX - start.x) (screenY - start.y),
                dragStart := some ⟨screenX, screenY⟩ }
  | _, _ =>
    match ui.isDragging, ui.dragStart, ui.store.selectedIds with
    | true, some start, _ :: _ =>
        { ui with
          store := moveElements ui.store ui.store.selectedIds
            (canvasPoint.x - start.x) (canvasPoint.y - start.y),
          dragStart := some canvasPoint }
    | _, _, _ =>
      match ui.selectionBox, ui.dragStart with
      | some _, some start =>
          let box : Rect := ⟨start.x, start.y, canvasPoint.x - start.x, canvasPoint.y - start.y⟩
          { ui with selectionBox := some box }
      | _, _ =>
          if ui.isDrawing then { ui with drawingPoints := ui.drawingPoints ++ [canvasPoint] }
          else ui

/-- Source `Canvas.handleMouseUp` (the paths of the embedded fragment): commit
or cancel a freehand drawing, stop panning, stop dragging and push one
history entry for the gesture, or resolve the selection box. -/
def handleMouseUp (ui : CanvasUIState) (screenX screenY : ℚ) (freshId : String)
    (shiftKey : Bool) : CanvasUIState :=
  if ui.isDrawing && decide (1 < ui.drawingPoints.length) then
    { ui with store := (addDrawing ui.store freshId ui.drawingPoints).1,
              isDrawing := false, drawingPoints := [] }
  else if ui.isDrawing then
    { ui with isDrawing := false, drawingPoints := [] }
  else if ui.isPanning then
    { ui with isPanning := false, dragStart := none }
  else if ui.isDragging then
    { ui with store := pushHistory ui.store, isDragging := false, dragStart := none }
  else
    match ui.selectionBox with
    | some box =>
        let normalized := normalizeRect box
        let ids := (ui.store.elements.filter fun el =>
          rectsIntersect normalized ⟨el.x, el.y, el.width, el.height⟩).map fun el => el.id
        let store :=
          if shiftKey then setSelectedIds ui.store (jsSetDedup (ui.store.selectedIds ++ ids))
          else setSelectedIds ui.store ids
        { ui with selectionBox := none, dragStart := none, store := store }
    | none =>
        let _ := screenToCanvas ui.viewport screenX screenY
        ui

/-- Source `SelectionHandles`: the eight resize handles. -/
inductive HandlePosition where
  | nw
  | n
  | ne
  | e
  | se
  | s
  | sw
  | w
  deriving DecidableEq

/-- Source `position.includes('w')`. -/
def includesW : HandlePosition → Bool
  | .nw | .sw | .w => true
  | _ => false

/-- Source `position.includes('n')`. -/
def includesN : HandlePosition → Bool
  | .nw | .n | .ne => true
  | _ => false

/-- The `(newX, newY, newWidth, newHeight)` computed by a resize frame. -/
structure ResizeArgs where
  newX : ℚ
  newY : ℚ
  newWidth : ℚ
  newHeight : ℚ
  deriving DecidableEq

/-- Source `minSize = 20` in `SelectionHandles.handleMouseMove`. -/
def minSize : ℚ := 20

/-- Source `SelectionHandles.handleMouseMove`: the handle-specific geometry
update for mouse displacement `(dx, dy)` (already divided by the zoom),
followed by the minimum-size clamps that keep the opposite edge fixed
for the west/north handles. -/
def handleResizeMove (position : HandlePosition)
    (initialX initialY initialWidth initialHeight dx dy : ℚ) : ResizeArgs :=
  let a : ResizeArgs :=
    match position with
    | .nw => ⟨initialX + dx, initialY + dy, initialWidth - dx, initialHeight - dy⟩
    | .n => ⟨initialX, initialY + dy, initialWidth, initialHeight - dy⟩
    | .ne => ⟨initialX, initialY + dy, initialWidth + dx, initialHeight - dy⟩
    | .e => ⟨initialX, initialY, initialWidth + dx, initialHeight⟩
    | .se => ⟨initialX, initialY, initialWidth + dx, initialHeight + dy⟩
    | .s => ⟨initialX, initialY, initialWidth, initialHeight + dy⟩
    | .sw => ⟨initialX + dx, initialY, initialWidth - dx, initialHeight + dy⟩
    | .w => ⟨initialX + dx, initialY, initialWidth - dx, initialHeight⟩
  let b : ResizeArgs :=
    if a.newWidth < minSize then
      { a with newX := if includesW position then initialX + initialWidth - minSize else a.newX,
               newWidth := minSize }
    else a
  if b.newHeight < minSize then
    { b with newY := if includesN position then initialY + initialHeight - minSize else b.newY,
             newHeight := minSize }
  else b

/-- One frame of a resize gesture: the handler computes the new geometry
and calls `resizeElement(elementId, newWidth, newHeight, newX, newY)`. -/
def resizeGestureStep (s : ElementsStore) (elementId : String)
    (position : HandlePosition)
    (initialX initialY initialWidth initialHeight dx dy : ℚ) : ElementsStore :=
  let a := handleResizeMove position initialX initialY initialWidth initialHeight dx dy
  resizeElement s elementId a.newWidth a.newHeight (some a.newX) (some a.newY)

/-- Reference recursion for the loop of `calculateBestAnchors` once the
running minimum is a real value: keep the current best `b`, replace it
only on a strict improvement. -/
def firstMinFrom {α : Type} (d : α → ℚ) : List α → α → α
  | [], b => b
  | p :: l, b => firstMinFrom d l (if d p < d b then p else b)

/-- A whole select-tool drag gesture: mouse down at `(downX, downY)`,
a mouse-move frame per entry of `moves`, mouse up at `(upX, upY)`. -/
def dragGesture (ui : CanvasUIState) (downX downY : ℚ) (moves : List Point)
    (upX upY : ℚ) (freshId : String) : CanvasUIState :=
  handleMouseUp
    (moves.foldl (fun u m => handleMouseMoveFrame u m.x m.y)
      (handleMouseDownSelect ui downX downY false))
    upX upY freshId false

/-- Demo fixture: a default rectangle at the origin. -/
def demoRectA : CanvasElement := newShapeElement "a" ShapeType.rectangle 0 0

/-- Demo fixture: a default rectangle to the right of `demoRectA`. -/
def demoRectB : CanvasElement := newShapeElement "b" ShapeType.rectangle 300 40

/-- Demo fixture: a store holding the two demo rectangles. -/
def demoStoreAB : ElementsStore :=
  { initialElementsStore with elements := [demoRectA, demoRectB] }

/-- Demo fixture: a connector from `demoRectA` to `demoRectB`. -/
def demoConnAB : ConnectorElement :=
  { id := "c", sourceId := "a", targetId := "b",
    sourceAnchor := .right, targetAnchor := .left,
    style := defaultConnectorStyle, waypoints := none }

/-- Demo fixture: the two rectangles, the connector, rectangle `a`
selected. -/
def demoStoreConn : ElementsStore :=
  { demoStoreAB with connectors := [demoConnAB], selectedIds := ["a"] }

/-- Demo fixture: an idle canvas over `demoStoreAB`. -/
def demoUI : CanvasUIState :=
  { viewport := INITIAL_VIEWPORT, isDragging := false, isPanning := false,
    dragStart := none, selectionBox := none, isDrawing := false,
    drawingPoints := [], store := demoStoreAB }

/-- Demo fixture: sixty distinct edit-then-snapshot steps. -/
def demoSnaps60 : List (List CanvasElement × List ConnectorElement) :=
  (List.range 60).map fun i => ([newShapeElement (toString i) ShapeType.rectangle (i : ℚ) 0], [])

/-!  Helper lemmas: the first-strict-improvement fold of
`calculateBestAnchors` computes the first minimum of the enumeration. -/

theorem foldlBest_eq_firstMinFrom {α : Type} (d : α → ℚ) (l : List α) (b : α) :
    l.foldl (fun acc p => if ltMinDistance (d p) acc.2 then (p, some (d p)) else acc)
        (b, some (d b))
      = (firstMinFrom d l b, some (d (firstMinFrom d l b))) := by
  induction l generalizing b with
  | nil => rfl
  | cons p l ih =>
      rw [List.foldl_cons, firstMinFrom]
      by_cases h : d p < d b
      · rw [if_pos (by simp [ltMinDistance, h]), if_pos h]
        exact ih p
      · rw [if_neg (by simp [ltMinDistance, h]), if_neg h]
        exact ih b

theorem firstMinFrom_le_init {α : Type} (d : α → ℚ) (l : List α) (b : α) :
    d (firstMinFrom d l b) ≤ d b := by
  induction l generalizing b with
  | nil => exact le_refl _
  | cons p l ih =>
      rw [firstMinFrom]
      by_cases h : d p < d b
      · rw [if_pos h]
        exact le_trans (ih p) (le_of_lt h)
      · rw [if_neg h]
        exact ih b

theorem firstMinFrom_le {α : Type} (d : α → ℚ) (l : List α) (b : α) :
    ∀ q ∈ l, d (firstMinFrom d l b) ≤ d q := by
  induction l generalizing b with
  | nil => intro q hq; cases hq
  | cons p l ih =>
      intro q hq
      rw [firstMinFrom]
      rcases List.mem_cons.mp hq with rfl | hq'
      · by_cases h : d q < d b
        · rw [if_pos h]
          exact firstMinFrom_le_init d l q
        · rw [if_neg h]
          exact le_trans (firstMinFrom_le_init d l b) (not_lt.mp h)
      · by_cases h : d p < d b
        · rw [if_pos h]; exact ih p q hq'
        · rw [if_neg h]; exact ih b q hq'

theorem firstMinFrom_eq_self {α : Type} (d : α → ℚ) (l : List α) (b : α)
    (h : d b ≤ d (firstMinFrom d l b)) : firstMinFrom d l b = b := by
  induction l generalizing b with
  | nil => rfl
  | cons p l ih =>
      rw [firstMinFrom] at h ⊢
      by_cases hpb : d p < d b
      · rw [if_pos hpb] at h
        exact absurd (lt_of_le_of_lt (firstMinFrom_le_init d l p) hpb) (not_lt.mpr h)
      · rw [if_neg hpb] at h ⊢
        exact ih b h

theorem firstMinFrom_find {α : Type} (d : α → ℚ) (l : List α) (b : α) :
    (b :: l).find? (fun q => decide (d q ≤ d (firstMinFrom d l b)))
      = some (firstMinFrom d l b) := by
  induction l generalizing b with
  | nil =>
      rw [firstMinFrom]
      exact List.find?_cons_of_pos _ (by simp)
  | cons p l ih =>
      rw [firstMinFrom]
      by_cases hpb : d p < d b
      · rw [if_pos hpb]
        have h1 : d (firstMinFrom d l p) ≤ d p := firstMinFrom_le_init d l p
        have hb : ¬ d b ≤ d (firstMinFrom d l p) := not_le.mpr (lt_of_le_of_lt h1 hpb)
        rw [List.find?_cons_of_neg _ (by simpa using hb)]
        exact ih p
      · rw [if_neg hpb]
        by_cases hbr : d b ≤ d (firstMinFrom d l b)
        · have heq : firstMinFrom d l b = b := firstMinFrom_eq_self d l b hbr
          rw [heq]
          exact List.find?_cons_of_pos _ (by simp)
        · have hrb : d (firstMinFrom d l b) < d b := not_le.mp hbr
          have hrp : ¬ d p ≤ d (firstMinFrom d l b) :=
            not_le.mpr (lt_of_lt_of_le hrb (not_lt.mp hpb))
          rw [List.find?_cons_of_neg _ (by simpa using hbr),
              List.find?_cons_of_neg _ (by simpa using hrp)]
          have h2 := ih b
          rw [List.find?_cons_of_neg _ (by simpa using hbr)] at h2
          exact h2

theorem calculateBestAnchors_eq_firstMinFrom (source target : CanvasElement) :
    calculateBestAnchors source target
      = firstMinFrom (anchorDist2 source target) anchorPairs.tail
          (AnchorPosition.top, AnchorPosition.top) := by
  have h := foldlBest_eq_firstMinFrom (anchorDist2 source target) anchorPairs.tail
    (AnchorPosition.top, AnchorPosition.top)
  calc calculateBestAnchors source target
      = (List.foldl
          (fun acc pr =>
            if ltMinDistance (anchorDist2 source target pr) acc.2 then
              (pr, some (anchorDist2 source target pr))
            else acc)
          ((AnchorPosition.top, AnchorPosition.top),
            some (anchorDist2 source target (AnchorPosition.top, AnchorPosition.top)))
          anchorPairs.tail).1 := rfl
    _ = firstMinFrom (anchorDist2 source target) anchorPairs.tail
          (AnchorPosition.top, AnchorPosition.top) := by rw [h]

/-!  Helper lemmas: the history stack. -/

theorem pushHistory_elements (s : ElementsStore) : (pushHistory s).elements = s.elements := rfl

theorem pushHistory_connectors (s : ElementsStore) :
    (pushHistory s).connectors = s.connectors := rfl

theorem pushHistory_selectedIds (s : ElementsStore) :
    (pushHistory s).selectedIds = s.selectedIds := rfl

theorem pushHistory_index (s : ElementsStore) :
    (pushHistory s).historyIndex = ((pushHistory s).history.length : ℤ) - 1 := rfl

theorem pushHistory_history_tail (s : ElementsStore)
    (h1 : s.historyIndex = (s.history.length : ℤ) - 1)
    (h2 : s.history.length ≤ MAX_HISTORY) :
    (pushHistory s).history
      = (s.history ++ [mkHistoryEntry s]).drop (s.history.length + 1 - MAX_HISTORY) := by
  have hslice : sliceTo s.history (s.historyIndex + 1) = s.history := by
    rw [h1]
    unfold sliceTo
    rw [if_neg (by omega)]
    have hn : ((s.history.length : ℤ) - 1 + 1).toNat = s.history.length := by omega
    rw [hn, List.take_length]
  have hdef : (pushHistory s).history
      = (if MAX_HISTORY < (sliceTo s.history (s.historyIndex + 1) ++ [mkHistoryEntry s]).length
         then (sliceTo s.history (s.historyIndex + 1) ++ [mkHistoryEntry s]).drop 1
         else sliceTo s.history (s.historyIndex + 1) ++ [mkHistoryEntry s]) := rfl
  rw [hdef, hslice]
  by_cases hc : MAX_HISTORY < (s.history ++ [mkHistoryEntry s]).length
  · rw [if_pos hc]
    have hone : s.history.length + 1 - MAX_HISTORY = 1 := by
      simp only [List.length_append, List.length_singleton] at hc
      omega
    rw [hone]
  · rw [if_neg hc]
    have hzero : s.history.length + 1 - MAX_HISTORY = 0 := by
      simp only [List.length_append, List.length_singleton, not_lt] at hc
      omega
    rw [hzero, List.drop_zero]

theorem pushHistory_length_tail (s : ElementsStore)
    (h1 : s.historyIndex = (s.history.length : ℤ) - 1)
    (h2 : s.history.length ≤ MAX_HISTORY) :
    (pushHistory s).history.length = min (s.history.length + 1) MAX_HISTORY := by
  rw [pushHistory_history_tail s h1 h2, List.length_drop]
  simp only [List.length_append, List.length_singleton]
  omega

theorem pushHistorySeq_spec
    (snaps : List (List CanvasElement × List ConnectorElement)) :
    ∀ s : ElementsStore,
      s.historyIndex = (s.history.length : ℤ) - 1 → s.history.length ≤ MAX_HISTORY →
      (pushHistorySeq s snaps).history
          = (s.history ++ snaps.map fun ec =>
              ({ elements := ec.1, connectors := ec.2 } : HistoryEntry)).drop
              (s.history.length + snaps.length - MAX_HISTORY) ∧
      (pushHistorySeq s snaps).history.length
          = min (s.history.length + snaps.length) MAX_HISTORY ∧
      (pushHistorySeq s snaps).historyIndex
          = ((pushHistorySeq s snaps).history.length : ℤ) - 1 := by
  induction snaps with
  | nil =>
      intro s h1 h2
      refine ⟨?_, ?_, h1⟩
      · simp only [pushHistorySeq, List.foldl_nil, List.map_nil, List.append_nil,
          List.length_nil, Nat.add_zero]
        rw [Nat.sub_eq_zero_of_le h2, List.drop_zero]
      · simp only [pushHistorySeq, List.foldl_nil, List.length_nil, Nat.add_zero]
        omega
  | cons ec snaps ih =>
      intro s h1 h2
      have ht1 : (pushHistory { s with elements := ec.1, connectors := ec.2 }).historyIndex
          = ((pushHistory { s with elements := ec.1, connectors := ec.2 }).history.length : ℤ) - 1 :=
        pushHistory_index _
      have hth : (pushHistory { s with elements := ec.1, connectors := ec.2 }).history
          = (s.history ++ [({ elements := ec.1, connectors := ec.2 } : HistoryEntry)]).drop
              (s.history.length + 1 - MAX_HISTORY) :=
        pushHistory_history_tail _ h1 h2
      have htlen : (pushHistory { s with elements := ec.1, connectors := ec.2 }).history.length
          = min (s.history.length + 1) MAX_HISTORY :=
        pushHistory_length_tail _ h1 h2
      have htlen2 : (pushHistory { s with elements := ec.1, connectors := ec.2 }).history.length
          ≤ MAX_HISTORY := by omega
      obtain ⟨ihh, ihl, ihi⟩ := ih (pushHistory { s with elements := ec.1, connectors := ec.2 })
        ht1 htlen2
      have hstep : pushHistorySeq s (ec :: snaps)
          = pushHistorySeq (pushHistory { s with elements := ec.1, connectors := ec.2 }) snaps := rfl
      refine ⟨?_, ?_, ?_⟩
      · rw [hstep, ihh, htlen, hth]
        have hfuse : ((s.history ++ [({ elements := ec.1, connectors := ec.2 } : HistoryEntry)]) ++
              snaps.map fun x => ({ elements := x.1, connectors := x.2 } : HistoryEntry)).drop
              (s.history.length + 1 - MAX_HISTORY)
            = (s.history ++ [({ elements := ec.1, connectors := ec.2 } : HistoryEntry)]).drop
                (s.history.length + 1 - MAX_HISTORY) ++ snaps.map fun x =>
                ({ elements := x.1, connectors := x.2 } : HistoryEntry) := by
          rw [List.drop_append_eq_append_drop]
          have hz : s.history.length + 1 - MAX_HISTORY -
              (s.history ++ [({ elements := ec.1, connectors := ec.2 } : HistoryEntry)]).length = 0 := by
            simp only [List.length_append, List.length_singleton]
            omega
          rw [hz, List.drop_zero]
        rw [← hfuse, List.drop_drop, List.append_assoc, List.singleton_append,
          List.map_cons, List.length_cons]
        congr 1
        omega
      · rw [hstep, ihl, htlen, List.length_cons]
        omega
      · rw [hstep]
        exact ihi

theorem pushHistory_truncates (t : ElementsStore) (h : -1 ≤ t.historyIndex) :
    (pushHistory t).history
      = (if MAX_HISTORY <
            (t.history.take (t.historyIndex + 1).toNat ++ [mkHistoryEntry t]).length
         then (t.history.take (t.historyIndex + 1).toNat ++ [mkHistoryEntry t]).drop 1
         else t.history.take (t.historyIndex + 1).toNat ++ [mkHistoryEntry t]) := by
  have hslice : sliceTo t.history (t.historyIndex + 1)
      = t.history.take (t.historyIndex + 1).toNat := by
    unfold sliceTo
    rw [if_neg (by omega)]
  have hdef : (pushHistory t).history
      = (if MAX_HISTORY < (sliceTo t.history (t.historyIndex + 1) ++ [mkHistoryEntry t]).length
         then (sliceTo t.history (t.historyIndex + 1) ++ [mkHistoryEntry t]).drop 1
         else sliceTo t.history (t.historyIndex + 1) ++ [mkHistoryEntry t]) := rfl
  rw [hdef, hslice]

theorem undo_noop (s : ElementsStore) (h : s.historyIndex ≤ 0) : undo s = s := by
  unfold undo
  rw [if_pos h]

theorem redo_noop (s : ElementsStore)
    (h : (s.history.length : ℤ) - 1 ≤ s.historyIndex) : redo s = s := by
  unfold redo
  rw [if_pos h]

theorem undo_step (s : ElementsStore) (h0 : 0 < s.historyIndex)
    (hlt : s.historyIndex < (s.history.length : ℤ)) :
    ∃ entry, s.history.get? (s.historyIndex - 1).toNat = some entry ∧
      undo s = { s with elements := entry.elements, connectors := entry.connectors,
                        historyIndex := s.historyIndex - 1, selectedIds := [] } := by
  have hn : (s.historyIndex - 1).toNat < s.history.length := by omega
  obtain ⟨entry, hentry⟩ : ∃ e, s.history.get? (s.historyIndex - 1).toNat = some e :=
    ⟨_, List.get?_eq_get hn⟩
  refine ⟨entry, hentry, ?_⟩
  unfold undo
  rw [if_neg (by omega), hentry]

theorem undo_iter_tail (s : ElementsStore)
    (h1 : s.historyIndex = (s.history.length : ℤ) - 1) :
    ∀ k : ℕ, k + 1 ≤ s.history.length →
      (undo^[k] s).history = s.history ∧
      (undo^[k] s).historyIndex = s.historyIndex - k ∧
      (1 ≤ k → ∃ entry, s.history.get? (s.history.length - 1 - k) = some entry ∧
        (undo^[k] s).elements = entry.elements ∧
        (undo^[k] s).connectors = entry.connectors) := by
  intro k
  induction k with
  | zero =>
      intro _
      exact ⟨rfl, by simp, by omega⟩
  | succ k ih =>
      intro hk
      obtain ⟨ihh, ihi, _⟩ := ih (by omega)
      have hidx : (undo^[k] s).historyIndex = (s.history.length : ℤ) - 1 - k := by
        rw [ihi, h1]
      have h0 : 0 < (undo^[k] s).historyIndex := by
        rw [hidx]; omega
      have hlt : (undo^[k] s).historyIndex < ((undo^[k] s).history.length : ℤ) := by
        rw [hidx, ihh]; omega
      obtain ⟨entry, hget, hundo⟩ := undo_step (undo^[k] s) h0 hlt
      rw [Function.iterate_succ_apply', hundo]
      refine ⟨ihh, ?_, ?_⟩
      · show (undo^[k] s).historyIndex - 1 = s.historyIndex - ((k : ℤ) + 1)
        rw [hidx, h1]
        ring
      · intro _
        refine ⟨entry, ?_, rfl, rfl⟩
        rw [ihh] at hget
        have hix : ((undo^[k] s).historyIndex - 1).toNat = s.history.length - 1 - (k + 1) := by
          rw [hidx]; omega
        rw [hix] at hget
        exact hget

/-!  Helper lemmas: reducing the endpoint lookups. -/

theorem refreshConnector_eq (elements : List CanvasElement) (c : ConnectorElement)
    (src tgt : CanvasElement)
    (hs : elements.find? (fun e => e.id == c.sourceId) = some src)
    (ht : elements.find? (fun e => e.id == c.targetId) = some tgt) :
    refreshConnector elements c
      = { c with sourceAnchor := (calculateBestAnchors src tgt).1,
                 targetAnchor := (calculateBestAnchors src tgt).2 } := by
  unfold refreshConnector
  rw [hs, ht]

/-!  Claim theorems. -/

/-- C6: for a viewport whose zoom is within `[MIN_ZOOM, MAX_ZOOM]`, after
`zoomTo(z2, cx, cy)` the diagram-space point under the cursor,
`screenToCanvas(cx, cy)`, is exactly unchanged, and the new zoom is `z2`
clamped to `[MIN_ZOOM, MAX_ZOOM]`. -/
theorem zoomTo_fixes_cursor_point (v : ViewportState) (z2 cx cy : ℚ)
    (hlo : MIN_ZOOM ≤ v.zoom) (hhi : v.zoom ≤ MAX_ZOOM) :
    screenToCanvas (zoomTo v z2 cx cy) cx cy = screenToCanvas v cx cy ∧
    (zoomTo v z2 cx cy).zoom = max MIN_ZOOM (min MAX_ZOOM z2) := by
  have hmin : (0 : ℚ) < MIN_ZOOM := by norm_num [MIN_ZOOM]
  have hz : v.zoom ≠ 0 := by
    intro h
    rw [h] at hlo
    linarith
  have hcz : max MIN_ZOOM (min MAX_ZOOM z2) ≠ 0 := by
    have hle : MIN_ZOOM ≤ max MIN_ZOOM (min MAX_ZOOM z2) := le_max_left _ _
    intro h
    rw [h] at hle
    linarith
  refine ⟨?_, rfl⟩
  simp only [screenToCanvas, zoomTo, Point.mk.injEq]
  constructor
  · field_simp
    ring
  · field_simp
    ring

/-- C6 witness: zooming from the initial viewport to zoom 3 about
`(100, 50)`. -/
theorem zoomTo_fixes_cursor_point_witness :
    MIN_ZOOM ≤ INITIAL_VIEWPORT.zoom ∧ INITIAL_VIEWPORT.zoom ≤ MAX_ZOOM ∧
    (screenToCanvas (zoomTo INITIAL_VIEWPORT 3 100 50) 100 50
        = screenToCanvas INITIAL_VIEWPORT 100 50 ∧
     (zoomTo INITIAL_VIEWPORT 3 100 50).zoom = max MIN_ZOOM (min MAX_ZOOM 3)) :=
  ⟨by norm_num [MIN_ZOOM, INITIAL_VIEWPORT], by norm_num [MAX_ZOOM, INITIAL_VIEWPORT],
   zoomTo_fixes_cursor_point INITIAL_VIEWPORT 3 100 50
     (by norm_num [MIN_ZOOM, INITIAL_VIEWPORT])
     (by norm_num [MAX_ZOOM, INITIAL_VIEWPORT])⟩

/-- C9: when either endpoint id does not resolve to a live element,
`addConnector` and `addConnectorWithAnchors` return the empty id and
leave the store entirely unchanged (silent no-op, no exception). -/
theorem addConnector_invalid_endpoint_noop (s : ElementsStore)
    (id sourceId targetId : String) (sa ta : AnchorPosition)
    (h : s.elements.find? (fun e => e.id == sourceId) = none ∨
         s.elements.find? (fun e => e.id == targetId) = none) :
    addConnector s id sourceId targetId = (s, "") ∧
    addConnectorWithAnchors s id sourceId sa targetId ta = (s, "") := by
  constructor
  · unfold addConnector
    rcases h with h | h
    · rw [h]
    · rw [h]
      cases s.elements.find? (fun e => e.id == sourceId) <;> rfl
  · unfold addConnectorWithAnchors
    rcases h with h | h
    · rw [h]
    · rw [h]
      cases s.elements.find? (fun e => e.id == sourceId) <;> rfl

/-- C9 witness: a stale source id against the two-rectangle store. -/
theorem addConnector_invalid_endpoint_noop_witness :
    (demoStoreAB.elements.find? (fun e => e.id == "zzz") = none ∨
     demoStoreAB.elements.find? (fun e => e.id == "b") = none) ∧
    (addConnector demoStoreAB "c9" "zzz" "b" = (demoStoreAB, "") ∧
     addConnectorWithAnchors demoStoreAB "c9" "zzz" AnchorPosition.top "b"
       AnchorPosition.top = (demoStoreAB, "")) :=
  ⟨Or.inl rfl,
   addConnector_invalid_endpoint_noop demoStoreAB "c9" "zzz" "b"
     AnchorPosition.top AnchorPosition.top (Or.inl rfl)⟩

/-- C2: `moveElements(ids, dx, dy)` translates exactly the listed
elements by `(dx, dy)` (identifier, size and payload untouched), leaves
every other element untouched, leaves the connector list — hence every
connector's `sourceId`, `targetId`, `sourceAnchor`, `targetAnchor` —
unchanged, and does not touch the history; anchors are recomputed only
by the explicit `updateConnectorAnchors` refresh, which applies
`calculateBestAnchors` to each resolvable connector. -/
theorem moveElements_translates_and_keeps_anchors
    (s : ElementsStore) (ids : List String) (dx dy : ℚ) :
    (moveElements s ids dx dy).connectors = s.connectors ∧
    (moveElements s ids dx dy).history = s.history ∧
    (moveElements s ids dx dy).historyIndex = s.historyIndex ∧
    (moveElements s ids dx dy).elements.length = s.elements.length ∧
    (∀ i (h : i < s.elements.length) (h' : i < (moveElements s ids dx dy).elements.length),
      (ids.contains (s.elements.get ⟨i, h⟩).id = true →
        (moveElements s ids dx dy).elements.get ⟨i, h'⟩
          = { s.elements.get ⟨i, h⟩ with
              x := (s.elements.get ⟨i, h⟩).x + dx,
              y := (s.elements.get ⟨i, h⟩).y + dy }) ∧
      (ids.contains (s.elements.get ⟨i, h⟩).id = false →
        (moveElements s ids dx dy).elements.get ⟨i, h'⟩ = s.elements.get ⟨i, h⟩)) ∧
    (∀ j (hj : j < s.connectors.length)
       (hj' : j < (updateConnectorAnchors s).connectors.length) (src tgt : CanvasElement),
      s.elements.find? (fun e => e.id == (s.connectors.get ⟨j, hj⟩).sourceId) = some src →
      s.elements.find? (fun e => e.id == (s.connectors.get ⟨j, hj⟩).targetId) = some tgt →
      ((updateConnectorAnchors s).connectors.get ⟨j, hj'⟩).sourceAnchor
          = (calculateBestAnchors src tgt).1 ∧
      ((updateConnectorAnchors s).connectors.get ⟨j, hj'⟩).targetAnchor
          = (calculateBestAnchors src tgt).2) := by
  refine ⟨rfl, rfl, rfl, by simp [moveElements], ?_, ?_⟩
  · intro i h h'
    have hg : (moveElements s ids dx dy).elements.get ⟨i, h'⟩
        = (if ids.contains (s.elements.get ⟨i, h⟩).id = true
           then { s.elements.get ⟨i, h⟩ with
                  x := (s.elements.get ⟨i, h⟩).x + dx,
                  y := (s.elements.get ⟨i, h⟩).y + dy }
           else s.elements.get ⟨i, h⟩) := by
      have hg0 : (moveElements s ids dx dy).elements.get ⟨i, h'⟩
          = (fun el => if ids.contains el.id then
              { el with x := el.x + dx, y := el.y + dy } else el) (s.elements.get ⟨i, h⟩) := by
        simp [moveElements, List.get_eq_getElem, List.getElem_map]
      exact hg0
    constructor
    · intro hc
      rw [hg, if_pos hc]
    · intro hc
      rw [hg, if_neg (by rw [hc]; decide)]
  · intro j hj hj' src tgt hsrc htgt
    have hg : (updateConnectorAnchors s).connectors.get ⟨j, hj'⟩
        = refreshConnector s.elements (s.connectors.get ⟨j, hj⟩) := by
      simp [updateConnectorAnchors, List.get_eq_getElem, List.getElem_map]
    rw [hg, refreshConnector_eq s.elements _ src tgt hsrc htgt]
    exact ⟨rfl, rfl⟩

/-- C2 witness: moving rectangle `a` by `(3, 4)` in the connected store,
then refreshing the anchors of its connector. -/
theorem moveElements_translates_and_keeps_anchors_witness :
    (moveElements demoStoreConn ["a"] 3 4).connectors = demoStoreConn.connectors ∧
    (moveElements demoStoreConn ["a"] 3 4).elements.get ⟨0, by decide⟩
      = { demoStoreConn.elements.get ⟨0, by decide⟩ with
          x := (demoStoreConn.elements.get ⟨0, by decide⟩).x + 3,
          y := (demoStoreConn.elements.get ⟨0, by decide⟩).y + 4 } ∧
    (moveElements demoStoreConn ["a"] 3 4).elements.get ⟨1, by decide⟩
      = demoStoreConn.elements.get ⟨1, by decide⟩ ∧
    ((updateConnectorAnchors demoStoreConn).connectors.get ⟨0, by decide⟩).sourceAnchor
      = (calculateBestAnchors demoRectA demoRectB).1 := by
  have h := moveElements_translates_and_keeps_anchors demoStoreConn ["a"] 3 4
  refine ⟨h.1, ?_, ?_, ?_⟩
  · exact (h.2.2.2.2.1 0 (by decide) (by decide)).1 (by decide)
  · exact (h.2.2.2.2.1 1 (by decide) (by decide)).2 (by decide)
  · exact (h.2.2.2.2.2 0 (by decide) (by decide) demoRectA demoRectB rfl rfl).1

/-- C1: for live source and target elements, `addConnector` appends one
connector whose `(sourceAnchor, targetAnchor)` pair is the
`calculateBestAnchors` result, and that pair minimises the Euclidean
distance between the two anchor points (stated both on the exact squared
distance and through `Real.sqrt`) over all 16 combinations; ties are
broken by enumeration order, the first minimum winning (the chosen pair
is the first pair in `anchorPairs` whose distance attains the minimum). -/
theorem addConnector_picks_first_min_anchor_pair
    (s : ElementsStore) (id sourceId targetId : String) (src tgt : CanvasElement)
    (hs : s.elements.find? (fun e => e.id == sourceId) = some src)
    (ht : s.elements.find? (fun e => e.id == targetId) = some tgt) :
    (addConnector s id sourceId targetId).1.connectors
        = s.connectors ++
          [{ id := id, sourceId := sourceId, targetId := targetId,
             sourceAnchor := (calculateBestAnchors src tgt).1,
             targetAnchor := (calculateBestAnchors src tgt).2,
             style := defaultConnectorStyle, waypoints := none }] ∧
    (addConnector s id sourceId targetId).2 = id ∧
    (∀ pr ∈ anchorPairs,
      anchorDist2 src tgt (calculateBestAnchors src tgt) ≤ anchorDist2 src tgt pr) ∧
    (∀ pr ∈ anchorPairs,
      Real.sqrt ((anchorDist2 src tgt (calculateBestAnchors src tgt) : ℚ) : ℝ)
        ≤ Real.sqrt ((anchorDist2 src tgt pr : ℚ) : ℝ)) ∧
    anchorPairs.find? (fun pr =>
        decide (anchorDist2 src tgt pr ≤ anchorDist2 src tgt (calculateBestAnchors src tgt)))
      = some (calculateBestAnchors src tgt) := by
  have hcons : anchorPairs = (AnchorPosition.top, AnchorPosition.top) :: anchorPairs.tail := rfl
  have hmin : ∀ pr ∈ anchorPairs,
      anchorDist2 src tgt (calculateBestAnchors src tgt) ≤ anchorDist2 src tgt pr := by
    intro pr hpr
    rw [calculateBestAnchors_eq_firstMinFrom]
    rw [hcons] at hpr
    rcases List.mem_cons.mp hpr with rfl | hpr2
    · exact firstMinFrom_le_init _ _ _
    · exact firstMinFrom_le _ _ _ pr hpr2
  refine ⟨?_, ?_, hmin, ?_, ?_⟩
  · unfold addConnector
    rw [hs, ht]
    rfl
  · unfold addConnector
    rw [hs, ht]
  · intro pr hpr
    exact Real.sqrt_le_sqrt (by exact_mod_cast hmin pr hpr)
  · rw [calculateBestAnchors_eq_firstMinFrom, hcons]
    exact firstMinFrom_find _ _ _

/-- C1 witness: connecting the two demo rectangles. -/
theorem addConnector_picks_first_min_anchor_pair_witness :
    demoStoreAB.elements.find? (fun e => e.id == "a") = some demoRectA ∧
    demoStoreAB.elements.find? (fun e => e.id == "b") = some demoRectB ∧
    (addConnector demoStoreAB "c1" "a" "b").1.connectors
      = demoStoreAB.connectors ++
        [{ id := "c1", sourceId := "a", targetId := "b",
           sourceAnchor := (calculateBestAnchors demoRectA demoRectB).1,
           targetAnchor := (calculateBestAnchors demoRectA demoRectB).2,
           style := defaultConnectorStyle, waypoints := none }] ∧
    anchorDist2 demoRectA demoRectB (calculateBestAnchors demoRectA demoRectB)
      ≤ anchorDist2 demoRectA demoRectB (AnchorPosition.bottom, AnchorPosition.top) ∧
    anchorPairs.find? (fun pr =>
        decide (anchorDist2 demoRectA demoRectB pr
          ≤ anchorDist2 demoRectA demoRectB (calculateBestAnchors demoRectA demoRectB)))
      = some (calculateBestAnchors demoRectA demoRectB) := by
  have h := addConnector_picks_first_min_anchor_pair demoStoreAB "c1" "a" "b"
    demoRectA demoRectB rfl rfl
  exact ⟨rfl, rfl, h.1, h.2.2.1 _ (by decide), h.2.2.2.2⟩

/-- C7: `addDrawing` on fewer than 2 points is a no-op returning the
empty id; on 2 or more points it appends a drawing whose origin is the
bounding-box minimum, whose size is the bounding-box extent floored at 1,
and whose stored points are the inputs translated by the negated
bounding-box origin, selecting only the new element. -/
theorem addDrawing_bounding_box (s : ElementsStore) (id : String) (points : List Point) :
    (points.length < 2 → addDrawing s id points = (s, "")) ∧
    (∀ p0 p1 rest, points = p0 :: p1 :: rest →
      (addDrawing s id points).2 = id ∧
      (addDrawing s id points).1.elements
        = s.elements ++
          [{ id := id,
             x := listMin p0.x ((p1 :: rest).map Point.x),
             y := listMin p0.y ((p1 :: rest).map Point.y),
             width := max (listMax p0.x ((p1 :: rest).map Point.x)
               - listMin p0.x ((p1 :: rest).map Point.x)) 1,
             height := max (listMax p0.y ((p1 :: rest).map Point.y)
               - listMin p0.y ((p1 :: rest).map Point.y)) 1,
             rotation := none, locked := none,
             data := .drawing ((p0 :: p1 :: rest).map fun p =>
               (⟨p.x - listMin p0.x ((p1 :: rest).map Point.x),
                 p.y - listMin p0.y ((p1 :: rest).map Point.y)⟩ : Point))
               defaultDrawingStyle }] ∧
      (addDrawing s id points).1.selectedIds = [id]) := by
  constructor
  · intro hlen
    cases points with
    | nil => rfl
    | cons p0 tl =>
        cases tl with
        | nil => rfl
        | cons p1 tl2 =>
            simp only [List.length_cons] at hlen
            omega
  · intro p0 p1 rest hpts
    subst hpts
    exact ⟨rfl, rfl, rfl⟩

/-- C7 witness: the freehand round-trip scenario, points
`[(10,10), (20,15), (30,10)]`, and the one-point no-op. -/
theorem addDrawing_bounding_box_witness :
    (addDrawing initialElementsStore "d1" [(⟨10, 10⟩ : Point), ⟨20, 15⟩, ⟨30, 10⟩]).1.elements
      = [{ id := "d1", x := 10, y := 10, width := 20, height := 5,
           rotation := none, locked := none,
           data := .drawing [(⟨0, 0⟩ : Point), ⟨10, 5⟩, ⟨20, 0⟩] defaultDrawingStyle }] ∧
    (addDrawing initialElementsStore "d1" [(⟨10, 10⟩ : Point), ⟨20, 15⟩, ⟨30, 10⟩]).2 = "d1" ∧
    addDrawing initialElementsStore "d0" [(⟨1, 1⟩ : Point)] = (initialElementsStore, "") := by
  have h := addDrawing_bounding_box initialElementsStore "d1"
    [(⟨10, 10⟩ : Point), ⟨20, 15⟩, ⟨30, 10⟩]
  have h2 := h.2 ⟨10, 10⟩ ⟨20, 15⟩ [⟨30, 10⟩] rfl
  have h0 := addDrawing_bounding_box initialElementsStore "d0" [(⟨1, 1⟩ : Point)]
  refine ⟨?_, h2.1, h0.1 (by decide)⟩
  rw [h2.2.1]
  norm_num [initialElementsStore, listMin, listMax, min_def, max_def]

/-- C5 counterexample: `addShape` does push a history entry itself — on
the empty store the history after `addShape` differs from the history
before, contradicting the claim that `addShape` leaves the history
unchanged. -/
theorem addShape_pushes_history_counterexample :
    (addShape initialElementsStore "e1" ShapeType.rectangle 0 0).1.history
      ≠ initialElementsStore.history := by
  decide

/-- C5 (amended): `addShape` / `addText` insert the new element, select
only it, return its id — and push one history entry themselves, whose
snapshot is the state with the element inserted. -/
theorem addShape_addText_insert_select_push (s : ElementsStore) (id : String)
    (shapeType : ShapeType) (x y : ℚ)
    (h1 : s.historyIndex = (s.history.length : ℤ) - 1)
    (h2 : s.history.length ≤ MAX_HISTORY) :
    (addShape s id shapeType x y).1.elements
        = s.elements ++ [newShapeElement id shapeType x y] ∧
    (addShape s id shapeType x y).1.selectedIds = [id] ∧
    (addShape s id shapeType x y).2 = id ∧
    (addShape s id shapeType x y).1.history
        = (s.history ++ [({ elements := s.elements ++ [newShapeElement id shapeType x y],
                            connectors := s.connectors } : HistoryEntry)]).drop
            (s.history.length + 1 - MAX_HISTORY) ∧
    (addShape s id shapeType x y).1.history.length
        = min (s.history.length + 1) MAX_HISTORY ∧
    (addText s id x y).1.elements = s.elements ++ [newTextElement id x y] ∧
    (addText s id x y).1.selectedIds = [id] ∧
    (addText s id x y).1.history
        = (s.history ++ [({ elements := s.elements ++ [newTextElement id x y],
                            connectors := s.connectors } : HistoryEntry)]).drop
            (s.history.length + 1 - MAX_HISTORY) := by
  have hs1 := pushHistory_history_tail
    { s with elements := s.elements ++ [newShapeElement id shapeType x y],
             selectedIds := [id] } h1 h2
  have hs2 := pushHistory_length_tail
    { s with elements := s.elements ++ [newShapeElement id shapeType x y],
             selectedIds := [id] } h1 h2
  have ht1 := pushHistory_history_tail
    { s with elements := s.elements ++ [newTextElement id x y],
             selectedIds := [id] } h1 h2
  exact ⟨rfl, rfl, rfl, hs1, hs2, rfl, rfl, ht1⟩

/-- C5 witness under the amendment: adding one rectangle to the empty
store. -/
theorem addShape_addText_insert_select_push_witness :
    (addShape initialElementsStore "e1" ShapeType.rectangle 5 6).1.elements
      = [newShapeElement "e1" ShapeType.rectangle 5 6] ∧
    (addShape initialElementsStore "e1" ShapeType.rectangle 5 6).1.history.length = 1 := by
  have h := addShape_addText_insert_select_push initialElementsStore "e1"
    ShapeType.rectangle 5 6 (by decide) (by decide)
  refine ⟨?_, ?_⟩
  · simpa using h.1
  · rw [h.2.2.2.2.1]
    decide

/-- C3: `pushHistory` on any state truncates the redo tail beyond
`historyIndex`, appends a snapshot, evicts the oldest entry when over
the 50 cap, and points the index at the new tail; from a tail state with
at most 50 entries, any sequence of edit-then-snapshot pushes keeps the
history at most 50 entries long,
retaining exactly the most recent snapshots in order with the oldest
evicted, and puts the index at the new tail; `redo` at the tail is a
no-op; iterated `undo` from the tail reaches index 0, restores the
oldest retained snapshot, and a further `undo` is a no-op. -/
theorem history_capped_undo_redo (s : ElementsStore)
    (h1 : s.historyIndex = (s.history.length : ℤ) - 1)
    (h2 : s.history.length ≤ MAX_HISTORY) :
    (∀ t : ElementsStore, -1 ≤ t.historyIndex →
      (pushHistory t).history
        = (if MAX_HISTORY <
              (t.history.take (t.historyIndex + 1).toNat ++ [mkHistoryEntry t]).length
           then (t.history.take (t.historyIndex + 1).toNat ++ [mkHistoryEntry t]).drop 1
           else t.history.take (t.historyIndex + 1).toNat ++ [mkHistoryEntry t]) ∧
      (pushHistory t).historyIndex = ((pushHistory t).history.length : ℤ) - 1) ∧
    (∀ snaps : List (List CanvasElement × List ConnectorElement),
      (pushHistorySeq s snaps).history
          = (s.history ++ snaps.map fun ec =>
              ({ elements := ec.1, connectors := ec.2 } : HistoryEntry)).drop
              (s.history.length + snaps.length - MAX_HISTORY) ∧
      (pushHistorySeq s snaps).history.length
          = min (s.history.length + snaps.length) MAX_HISTORY ∧
      (pushHistorySeq s snaps).historyIndex
          = ((pushHistorySeq s snaps).history.length : ℤ) - 1) ∧
    redo s = s ∧
    (1 ≤ s.history.length →
      (undo^[s.history.length - 1] s).history = s.history ∧
      (undo^[s.history.length - 1] s).historyIndex = 0 ∧
      undo (undo^[s.history.length - 1] s) = undo^[s.history.length - 1] s ∧
      (2 ≤ s.history.length →
        ∃ entry, s.history.get? 0 = some entry ∧
          (undo^[s.history.length - 1] s).elements = entry.elements ∧
          (undo^[s.history.length - 1] s).connectors = entry.connectors)) := by
  refine ⟨fun t ht => ⟨pushHistory_truncates t ht, pushHistory_index t⟩,
    fun snaps => pushHistorySeq_spec snaps s h1 h2, redo_noop s (by omega), ?_⟩
  intro hpos
  obtain ⟨hh, hi, hrest⟩ := undo_iter_tail s h1 (s.history.length - 1) (by omega)
  have hidx0 : (undo^[s.history.length - 1] s).historyIndex = 0 := by
    rw [hi, h1]
    omega
  refine ⟨hh, hidx0, undo_noop _ hidx0.le, ?_⟩
  intro h2len
  obtain ⟨entry, hget, he, hc⟩ := hrest (by omega)
  refine ⟨entry, ?_, he, hc⟩
  have hz : s.history.length - 1 - (s.history.length - 1) = 0 := by omega
  rw [hz] at hget
  exact hget

/-- C3 witness: sixty pushes on the empty store leave exactly the 50
most recent snapshots in order, and `redo` on the fresh store is a
no-op. -/
theorem history_capped_undo_redo_witness :
    (pushHistorySeq initialElementsStore demoSnaps60).history.length = 50 ∧
    (pushHistorySeq initialElementsStore demoSnaps60).history
      = (demoSnaps60.map fun ec =>
          ({ elements := ec.1, connectors := ec.2 } : HistoryEntry)).drop 10 ∧
    redo initialElementsStore = initialElementsStore := by
  have h := history_capped_undo_redo initialElementsStore (by decide) (by decide)
  obtain ⟨_, hp, hr, _⟩ := h
  obtain ⟨hh, hl, _⟩ := hp demoSnaps60
  have hlen60 : demoSnaps60.length = 60 := by
    decide
  refine ⟨?_, ?_, hr⟩
  · rw [hl, hlen60]
    decide
  · rw [hh, hlen60]
    simp [initialElementsStore, MAX_HISTORY]

/-- C4: for a live element `E` whose id is no connector's own id (ids
are distinct uuids), `deleteElement(E.id)` removes exactly the elements
with id `E.id` and exactly the connectors whose `sourceId` or `targetId`
is `E.id`, keeps everything else unchanged and in order, and removes
`E.id` from the selection; `deleteSelected` with `E` selected (connector
ids pairwise distinct) removes exactly the selected elements and exactly
the connectors that are themselves selected or reference a selected
element, and clears the selection. -/
theorem delete_cascades (s : ElementsStore) (E : CanvasElement)
    (hE : E ∈ s.elements)
    (hcid : ∀ c ∈ s.connectors, c.id ≠ E.id)
    (hnodup : (s.connectors.map fun c => c.id).Nodup)
    (hsel : E.id ∈ s.selectedIds) :
    ((deleteElement s E.id).elements = s.elements.filter fun el => !(el.id == E.id)) ∧
    (∀ el ∈ (deleteElement s E.id).elements, el.id ≠ E.id) ∧
    ((deleteElement s E.id).connectors
        = s.connectors.filter fun c => !(c.sourceId == E.id) && !(c.targetId == E.id)) ∧
    ((deleteElement s E.id).selectedIds = s.selectedIds.filter fun i => !(i == E.id)) ∧
    ((deleteSelected s).elements
        = s.elements.filter fun el => !(s.selectedIds.contains el.id)) ∧
    (∀ el ∈ (deleteSelected s).elements, el.id ≠ E.id) ∧
    ((deleteSelected s).connectors
        = s.connectors.filter fun c => !(s.selectedIds.contains c.id)
            && !(s.selectedIds.contains c.sourceId)
            && !(s.selectedIds.contains c.targetId)) ∧
    ((deleteSelected s).selectedIds = []) := by
  refine ⟨rfl, ?_, ?_, rfl, rfl, ?_, ?_, rfl⟩
  · intro el hel
    have h0 : (deleteElement s E.id).elements
        = s.elements.filter fun el => !(el.id == E.id) := rfl
    rw [h0] at hel
    have h2 := (List.mem_filter.mp hel).2
    simpa using h2
  · have h0 : (deleteElement s E.id).connectors
        = s.connectors.filter fun c =>
            !(c.id == E.id) && !(c.sourceId == E.id) && !(c.targetId == E.id) := rfl
    rw [h0]
    apply List.filter_congr
    intro c hc
    have hne : (c.id == E.id) = false := by
      simpa using hcid c hc
    rw [hne]
    simp
  · intro el hel
    have h0 : (deleteSelected s).elements
        = s.elements.filter fun el => !(s.selectedIds.contains el.id) := rfl
    rw [h0] at hel
    have h2 := (List.mem_filter.mp hel).2
    intro heq
    rw [heq] at h2
    simp at h2
    exact h2 hsel
  · have h0 : (deleteSelected s).connectors
        = s.connectors.filter fun c =>
            !(s.selectedIds.contains c.id) &&
            !(((s.connectors.filter fun c2 =>
                s.selectedIds.contains c2.sourceId || s.selectedIds.contains c2.targetId).map
                fun c2 => c2.id).contains c.id) := rfl
    rw [h0]
    apply List.filter_congr
    intro c hc
    have hkey : (((s.connectors.filter fun c2 =>
          s.selectedIds.contains c2.sourceId || s.selectedIds.contains c2.targetId).map
          fun c2 => c2.id).contains c.id)
        = (s.selectedIds.contains c.sourceId || s.selectedIds.contains c.targetId) := by
      rw [Bool.eq_iff_iff]
      constructor
      · intro hmem
        have hmem2 : c.id ∈ (s.connectors.filter fun c2 =>
            s.selectedIds.contains c2.sourceId || s.selectedIds.contains c2.targetId).map
            fun c2 => c2.id := by
          simpa using hmem
        obtain ⟨c2, hc2mem, hc2id⟩ := List.mem_map.mp hmem2
        obtain ⟨hc2conn, hc2sel⟩ := List.mem_filter.mp hc2mem
        have hceq : c2 = c := List.inj_on_of_nodup_map hnodup hc2conn hc hc2id
        rw [hceq] at hc2sel
        exact hc2sel
      · intro hsel2
        have hcmem : c ∈ s.connectors.filter fun c2 =>
            s.selectedIds.contains c2.sourceId || s.selectedIds.contains c2.targetId :=
          List.mem_filter.mpr ⟨hc, hsel2⟩
        have hmem : c.id ∈ (s.connectors.filter fun c2 =>
            s.selectedIds.contains c2.sourceId || s.selectedIds.contains c2.targetId).map
            fun c2 => c2.id :=
          List.mem_map.mpr ⟨c, hcmem, rfl⟩
        simpa using hmem
    rw [hkey]
    simp [Bool.and_assoc]

/-- C4 witness: deleting rectangle `a` from the connected demo store,
both directly and through the selection. -/
theorem delete_cascades_witness :
    (deleteElement demoStoreConn "a").elements = [demoRectB] ∧
    (deleteElement demoStoreConn "a").connectors = [] ∧
    (deleteElement demoStoreConn "a").selectedIds = [] ∧
    (deleteSelected demoStoreConn).elements = [demoRectB] ∧
    (deleteSelected demoStoreConn).connectors = [] ∧
    (deleteSelected demoStoreConn).selectedIds = [] := by
  have h := delete_cascades demoStoreConn demoRectA (by decide) (by decide)
    (by decide) (by decide)
  exact ⟨h.1.trans (by decide), h.2.2.1.trans (by decide), h.2.2.2.1.trans (by decide),
    h.2.2.2.2.1.trans (by decide), h.2.2.2.2.2.2.1.trans (by decide), h.2.2.2.2.2.2.2⟩

/-!  Helper lemmas: resize geometry. -/

theorem handleResizeMove_spec (position : HandlePosition)
    (initialX initialY initialWidth initialHeight dx dy : ℚ) :
    minSize ≤ (handleResizeMove position initialX initialY initialWidth initialHeight dx dy).newWidth ∧
    minSize ≤ (handleResizeMove position initialX initialY initialWidth initialHeight dx dy).newHeight ∧
    (includesW position = true →
      (handleResizeMove position initialX initialY initialWidth initialHeight dx dy).newX
        + (handleResizeMove position initialX initialY initialWidth initialHeight dx dy).newWidth
        = initialX + initialWidth) ∧
    (includesN position = true →
      (handleResizeMove position initialX initialY initialWidth initialHeight dx dy).newY
        + (handleResizeMove position initialX initialY initialWidth initialHeight dx dy).newHeight
        = initialY + initialHeight) := by
  cases position <;>
    · simp only [handleResizeMove, includesW, includesN, minSize]
      split_ifs <;>
        refine ⟨by simp_all; try linarith, by simp_all; try linarith, ?_, ?_⟩ <;>
          (intro hpos; first
            | exact absurd hpos (by decide)
            | (simp_all; try ring_nf; try linarith))

theorem resizeElement_get (s : ElementsStore) (id : String) (w h : ℚ)
    (xOpt yOpt : Option ℚ) (i : ℕ) (hi : i < s.elements.length)
    (hi' : i < (resizeElement s id w h xOpt yOpt).elements.length) :
    (resizeElement s id w h xOpt yOpt).elements.get ⟨i, hi'⟩
      = (if ((s.elements.get ⟨i, hi⟩).id == id) = true
         then { s.elements.get ⟨i, hi⟩ with
                width := max 20 w, height := max 20 h,
                x := xOpt.getD (s.elements.get ⟨i, hi⟩).x,
                y := yOpt.getD (s.elements.get ⟨i, hi⟩).y }
         else s.elements.get ⟨i, hi⟩) := by
  have hg0 : (resizeElement s id w h xOpt yOpt).elements.get ⟨i, hi'⟩
      = (fun el => if el.id == id then
          { el with width := max 20 w, height := max 20 h,
                    x := xOpt.getD el.x, y := yOpt.getD el.y }
         else el) (s.elements.get ⟨i, hi⟩) := by
    simp [resizeElement, List.get_eq_getElem, List.getElem_map]
  exact hg0

/-- C8: `resizeElement` clamps both axes to the 20 floor (elements not
matching the id are untouched); and a resize-handle gesture frame keeps
the bounding box's opposite edge fixed whenever the handle is on the
west/north side, for every displacement — in particular when the request
falls below the floor, because the handler then moves the origin to
`initial + initial extent - 20`. -/
theorem resizeElement_floor_and_opposite_edge (s : ElementsStore) (id : String) :
    (∀ (w h : ℚ) (xOpt yOpt : Option ℚ) i (hi : i < s.elements.length)
       (hi' : i < (resizeElement s id w h xOpt yOpt).elements.length),
      (((s.elements.get ⟨i, hi⟩).id == id) = true →
        ((resizeElement s id w h xOpt yOpt).elements.get ⟨i, hi'⟩).width = max 20 w ∧
        ((resizeElement s id w h xOpt yOpt).elements.get ⟨i, hi'⟩).height = max 20 h ∧
        ((resizeElement s id w h xOpt yOpt).elements.get ⟨i, hi'⟩).x
          = xOpt.getD (s.elements.get ⟨i, hi⟩).x ∧
        ((resizeElement s id w h xOpt yOpt).elements.get ⟨i, hi'⟩).y
          = yOpt.getD (s.elements.get ⟨i, hi⟩).y) ∧
      (((s.elements.get ⟨i, hi⟩).id == id) = false →
        (resizeElement s id w h xOpt yOpt).elements.get ⟨i, hi'⟩ = s.elements.get ⟨i, hi⟩)) ∧
    (∀ (position : HandlePosition) (iX iY iW iH dx dy : ℚ) i (hi : i < s.elements.length)
       (hi' : i < (resizeGestureStep s id position iX iY iW iH dx dy).elements.length),
      ((s.elements.get ⟨i, hi⟩).id == id) = true →
      20 ≤ ((resizeGestureStep s id position iX iY iW iH dx dy).elements.get ⟨i, hi'⟩).width ∧
      20 ≤ ((resizeGestureStep s id position iX iY iW iH dx dy).elements.get ⟨i, hi'⟩).height ∧
      (includesW position = true →
        ((resizeGestureStep s id position iX iY iW iH dx dy).elements.get ⟨i, hi'⟩).x
          + ((resizeGestureStep s id position iX iY iW iH dx dy).elements.get ⟨i, hi'⟩).width
          = iX + iW) ∧
      (includesN position = true →
        ((resizeGestureStep s id position iX iY iW iH dx dy).elements.get ⟨i, hi'⟩).y
          + ((resizeGestureStep s id position iX iY iW iH dx dy).elements.get ⟨i, hi'⟩).height
          = iY + iH)) := by
  constructor
  · intro w h xOpt yOpt i hi hi'
    constructor
    · intro hid
      rw [resizeElement_get s id w h xOpt yOpt i hi hi', if_pos hid]
      exact ⟨rfl, rfl, rfl, rfl⟩
    · intro hid
      rw [resizeElement_get s id w h xOpt yOpt i hi hi', if_neg (by rw [hid]; decide)]
  · intro position iX iY iW iH dx dy i hi hi' hid
    obtain ⟨hW, hH, hEW, hEN⟩ := handleResizeMove_spec position iX iY iW iH dx dy
    have hget : (resizeGestureStep s id position iX iY iW iH dx dy).elements.get ⟨i, hi'⟩
        = { s.elements.get ⟨i, hi⟩ with
            width := max 20 (handleResizeMove position iX iY iW iH dx dy).newWidth,
            height := max 20 (handleResizeMove position iX iY iW iH dx dy).newHeight,
            x := (handleResizeMove position iX iY iW iH dx dy).newX,
            y := (handleResizeMove position iX iY iW iH dx dy).newY } := by
      have hg := resizeElement_get s id
        (handleResizeMove position iX iY iW iH dx dy).newWidth
        (handleResizeMove position iX iY iW iH dx dy).newHeight
        (some (handleResizeMove position iX iY iW iH dx dy).newX)
        (some (handleResizeMove position iX iY iW iH dx dy).newY) i hi hi'
      rw [if_pos hid] at hg
      exact hg
    have hmaxW : max 20 (handleResizeMove position iX iY iW iH dx dy).newWidth
        = (handleResizeMove position iX iY iW iH dx dy).newWidth :=
      max_eq_right (by simpa [minSize] using hW)
    have hmaxH : max 20 (handleResizeMove position iX iY iW iH dx dy).newHeight
        = (handleResizeMove position iX iY iW iH dx dy).newHeight :=
      max_eq_right (by simpa [minSize] using hH)
    rw [hget]
    refine ⟨le_max_left _ _, le_max_left _ _, ?_, ?_⟩
    · intro hw
      show (handleResizeMove position iX iY iW iH dx dy).newX
          + max 20 (handleResizeMove position iX iY iW iH dx dy).newWidth = iX + iW
      rw [hmaxW]
      exact hEW hw
    · intro hn
      show (handleResizeMove position iX iY iW iH dx dy).newY
          + max 20 (handleResizeMove position iX iY iW iH dx dy).newHeight = iY + iH
      rw [hmaxH]
      exact hEN hn

/-- C8 witness: a below-floor resize of rectangle `a`, and a west-handle
drag whose requested width 10 is below the floor — width clamps to 20
and the right edge `x + width` stays at 120. -/
theorem resizeElement_floor_and_opposite_edge_witness :
    ((resizeElement demoStoreAB "a" 5 7 none none).elements.get ⟨0, by decide⟩).width = 20 ∧
    ((resizeElement demoStoreAB "a" 5 7 none none).elements.get ⟨0, by decide⟩).height = 20 ∧
    ((resizeGestureStep demoStoreAB "a" HandlePosition.w 0 0 120 80 110 0).elements.get
        ⟨0, by decide⟩).x
      + ((resizeGestureStep demoStoreAB "a" HandlePosition.w 0 0 120 80 110 0).elements.get
        ⟨0, by decide⟩).width
      = 0 + 120 := by
  have h := resizeElement_floor_and_opposite_edge demoStoreAB "a"
  have h1 := (h.1 5 7 none none 0 (by decide) (by decide)).1 (by decide)
  have h2 := h.2 HandlePosition.w 0 0 120 80 110 0 0 (by decide) (by decide) (by decide)
  refine ⟨?_, ?_, h2.2.2.1 rfl⟩
  · rw [h1.1]
    norm_num [max_def]
  · rw [h1.2.1]
    norm_num [max_def]

/-!  Helper lemmas: the select-tool gesture machine. -/

theorem handleMouseMoveFrame_frame (u : CanvasUIState) (sx sy : ℚ) :
    (handleMouseMoveFrame u sx sy).store.history = u.store.history ∧
    (handleMouseMoveFrame u sx sy).store.historyIndex = u.store.historyIndex ∧
    (handleMouseMoveFrame u sx sy).isDragging = u.isDragging ∧
    (handleMouseMoveFrame u sx sy).isPanning = u.isPanning ∧
    (handleMouseMoveFrame u sx sy).isDrawing = u.isDrawing := by
  unfold handleMouseMoveFrame
  split
  · exact ⟨rfl, rfl, rfl, rfl, rfl⟩
  · split
    · exact ⟨rfl, rfl, rfl, rfl, rfl⟩
    · split
      · exact ⟨rfl, rfl, rfl, rfl, rfl⟩
      · split
        · exact ⟨rfl, rfl, rfl, rfl, rfl⟩
        · exact ⟨rfl, rfl, rfl, rfl, rfl⟩

theorem foldMoves_frame (moves : List Point) (u : CanvasUIState) :
    ((moves.foldl (fun v m => handleMouseMoveFrame v m.x m.y) u).store.history
        = u.store.history) ∧
    ((moves.foldl (fun v m => handleMouseMoveFrame v m.x m.y) u).store.historyIndex
        = u.store.historyIndex) ∧
    ((moves.foldl (fun v m => handleMouseMoveFrame v m.x m.y) u).isDragging
        = u.isDragging) ∧
    ((moves.foldl (fun v m => handleMouseMoveFrame v m.x m.y) u).isPanning
        = u.isPanning) ∧
    ((moves.foldl (fun v m => handleMouseMoveFrame v m.x m.y) u).isDrawing
        = u.isDrawing) := by
  induction moves generalizing u with
  | nil => exact ⟨rfl, rfl, rfl, rfl, rfl⟩
  | cons m ms ih =>
      obtain ⟨a1, a2, a3, a4, a5⟩ := handleMouseMoveFrame_frame u m.x m.y
      obtain ⟨b1, b2, b3, b4, b5⟩ := ih (handleMouseMoveFrame u m.x m.y)
      rw [List.foldl_cons]
      exact ⟨b1.trans a1, b2.trans a2, b3.trans a3, b4.trans a4, b5.trans a5⟩

theorem handleMouseDownSelect_hit (u : CanvasUIState) (sx sy : ℚ) (hid : String)
    (hHit : hitTest u.store.elements u.store.connectors u.viewport.zoom
      (screenToCanvas u.viewport sx sy) = some hid) :
    (handleMouseDownSelect u sx sy false).isDragging = true ∧
    (handleMouseDownSelect u sx sy false).isPanning = u.isPanning ∧
    (handleMouseDownSelect u sx sy false).isDrawing = u.isDrawing ∧
    (handleMouseDownSelect u sx sy false).store.history = u.store.history ∧
    (handleMouseDownSelect u sx sy false).store.historyIndex = u.store.historyIndex ∧
    (handleMouseDownSelect u sx sy false).store.elements = u.store.elements ∧
    (handleMouseDownSelect u sx sy false).store.connectors = u.store.connectors := by
  simp only [handleMouseDownSelect]
  rw [hHit]
  by_cases hm : hid ∈ u.store.selectedIds <;>
    simp [hm, toggleSelection, setSelectedIds, clearSelection]

theorem demoUI_hitTest :
    hitTest demoUI.store.elements demoUI.store.connectors demoUI.viewport.zoom
      (screenToCanvas demoUI.viewport 10 10) = some "a" := by
  have hrev : demoUI.store.elements.reverse = [demoRectB, demoRectA] := rfl
  have hpt : screenToCanvas demoUI.viewport 10 10 = (⟨10, 10⟩ : Point) := by
    norm_num [screenToCanvas, demoUI, INITIAL_VIEWPORT]
  have hB : elementHit demoUI.viewport.zoom (⟨10, 10⟩ : Point) demoRectB = false := by
    show pointInRect ⟨10, 10⟩ ⟨demoRectB.x, demoRectB.y, demoRectB.width, demoRectB.height⟩
      = false
    norm_num [pointInRect, demoRectB, newShapeElement]
  have hA : elementHit demoUI.viewport.zoom (⟨10, 10⟩ : Point) demoRectA = true := by
    show pointInRect ⟨10, 10⟩ ⟨demoRectA.x, demoRectA.y, demoRectA.width, demoRectA.height⟩
      = true
    norm_num [pointInRect, demoRectA, newShapeElement]
  unfold hitTest
  rw [hpt, hrev, List.find?_cons_of_neg _ (by rw [hB]; decide),
    List.find?_cons_of_pos _ hA]
  rfl

/-- C10 counterexample: with the select tool, a mouse-down on rectangle
`a` followed immediately by a mouse-up at the same point — zero mouse
movement — changes the history (one entry is pushed), contradicting the
claim that such a gesture leaves the history unchanged. -/
theorem click_no_move_pushes_history_counterexample :
    (handleMouseUp (handleMouseDownSelect demoUI 10 10 false) 10 10 "g1" false).store.history
      ≠ demoUI.store.history := by
  obtain ⟨hd1, hd2, hd3, hd4, hd5, _, _⟩ := handleMouseDownSelect_hit demoUI 10 10 "a"
    demoUI_hitTest
  have hD : (handleMouseDownSelect demoUI 10 10 false).isDrawing = false := hd3.trans rfl
  have hP : (handleMouseDownSelect demoUI 10 10 false).isPanning = false := hd2.trans rfl
  have hup : handleMouseUp (handleMouseDownSelect demoUI 10 10 false) 10 10 "g1" false
      = { handleMouseDownSelect demoUI 10 10 false with
          store := pushHistory (handleMouseDownSelect demoUI 10 10 false).store,
          isDragging := false, dragStart := none } := by
    simp [handleMouseUp, hD, hP, hd1]
  have hinv : (handleMouseDownSelect demoUI 10 10 false).store.historyIndex
      = (((handleMouseDownSelect demoUI 10 10 false).store.history.length : ℕ) : ℤ) - 1 := by
    rw [hd5, hd4]
    decide
  have hle : (handleMouseDownSelect demoUI 10 10 false).store.history.length ≤ MAX_HISTORY := by
    rw [hd4]
    decide
  have hlen : (handleMouseUp (handleMouseDownSelect demoUI 10 10 false) 10 10 "g1"
      false).store.history.length = 1 := by
    rw [hup]
    show (pushHistory (handleMouseDownSelect demoUI 10 10 false).store).history.length = 1
    rw [pushHistory_length_tail _ hinv hle, hd4]
    decide
  intro heq
  rw [heq] at hlen
  simp [demoUI, demoStoreAB, initialElementsStore] at hlen

/-- C10 (amended): a select-tool gesture that begins with a mouse-down
hitting an element pushes exactly one history entry, on mouse-up, for
the whole gesture — none of the intermediate mouse-move frames touches
the history — and this is so whatever the number of move frames,
including zero: a click with no movement also pushes exactly one
(snapshot-identical) entry rather than leaving the history unchanged. -/
theorem dragGesture_one_history_entry (ui : CanvasUIState) (sx sy ex ey : ℚ)
    (moves : List Point) (freshId hid : String)
    (hD : ui.isDrawing = false) (hP : ui.isPanning = false)
    (hHit : hitTest ui.store.elements ui.store.connectors ui.viewport.zoom
      (screenToCanvas ui.viewport sx sy) = some hid)
    (h1 : ui.store.historyIndex = (ui.store.history.length : ℤ) - 1)
    (h2 : ui.store.history.length ≤ MAX_HISTORY) :
    (moves.foldl (fun v m => handleMouseMoveFrame v m.x m.y)
        (handleMouseDownSelect ui sx sy false)).store.history = ui.store.history ∧
    (dragGesture ui sx sy moves ex ey freshId).store.history
        = (ui.store.history ++
            [mkHistoryEntry (moves.foldl (fun v m => handleMouseMoveFrame v m.x m.y)
              (handleMouseDownSelect ui sx sy false)).store]).drop
            (ui.store.history.length + 1 - MAX_HISTORY) ∧
    (dragGesture ui sx sy moves ex ey freshId).store.history.length
        = min (ui.store.history.length + 1) MAX_HISTORY := by
  obtain ⟨hd1, hd2, hd3, hd4, hd5, _, _⟩ := handleMouseDownSelect_hit ui sx sy hid hHit
  obtain ⟨hf1, hf2, hf3, hf4, hf5⟩ := foldMoves_frame moves (handleMouseDownSelect ui sx sy false)
  have hMhist : (moves.foldl (fun v m => handleMouseMoveFrame v m.x m.y)
      (handleMouseDownSelect ui sx sy false)).store.history = ui.store.history :=
    hf1.trans hd4
  have hMidx : (moves.foldl (fun v m => handleMouseMoveFrame v m.x m.y)
      (handleMouseDownSelect ui sx sy false)).store.historyIndex = ui.store.historyIndex :=
    hf2.trans hd5
  have hMdrag : (moves.foldl (fun v m => handleMouseMoveFrame v m.x m.y)
      (handleMouseDownSelect ui sx sy false)).isDragging = true := hf3.trans hd1
  have hMpan : (moves.foldl (fun v m => handleMouseMoveFrame v m.x m.y)
      (handleMouseDownSelect ui sx sy false)).isPanning = false := hf4.trans (hd2.trans hP)
  have hMdraw : (moves.foldl (fun v m => handleMouseMoveFrame v m.x m.y)
      (handleMouseDownSelect ui sx sy false)).isDrawing = false := hf5.trans (hd3.trans hD)
  have hup : dragGesture ui sx sy moves ex ey freshId
      = { moves.foldl (fun v m => handleMouseMoveFrame v m.x m.y)
            (handleMouseDownSelect ui sx sy false) with
          store := pushHistory (moves.foldl (fun v m => handleMouseMoveFrame v m.x m.y)
            (handleMouseDownSelect ui sx sy false)).store,
          isDragging := false, dragStart := none } := by
    unfold dragGesture
    simp [handleMouseUp, hMdraw, hMpan, hMdrag]
  have hinv : (moves.foldl (fun v m => handleMouseMoveFrame v m.x m.y)
      (handleMouseDownSelect ui sx sy false)).store.historyIndex
      = (((moves.foldl (fun v m => handleMouseMoveFrame v m.x m.y)
          (handleMouseDownSelect ui sx sy false)).store.history.length : ℕ) : ℤ) - 1 := by
    rw [hMidx, hMhist]
    exact h1
  have hle : (moves.foldl (fun v m => handleMouseMoveFrame v m.x m.y)
      (handleMouseDownSelect ui sx sy false)).store.history.length ≤ MAX_HISTORY := by
    rw [hMhist]
    exact h2
  refine ⟨hMhist, ?_, ?_⟩
  · rw [hup]
    show (pushHistory (moves.foldl (fun v m => handleMouseMoveFrame v m.x m.y)
        (handleMouseDownSelect ui sx sy false)).store).history = _
    rw [pushHistory_history_tail _ hinv hle, hMhist]
  · rw [hup]
    show (pushHistory (moves.foldl (fun v m => handleMouseMoveFrame v m.x m.y)
        (handleMouseDownSelect ui sx sy false)).store).history.length = _
    rw [pushHistory_length_tail _ hinv hle, hMhist]

/-- C10 witness under the amendment: a drag of rectangle `a` with one
move frame — no history change until mouse-up, then exactly one entry. -/
theorem dragGesture_one_history_entry_witness :
    ([(⟨20, 20⟩ : Point)].foldl (fun v m => handleMouseMoveFrame v m.x m.y)
        (handleMouseDownSelect demoUI 10 10 false)).store.history
      = demoUI.store.history ∧
    (dragGesture demoUI 10 10 [(⟨20, 20⟩ : Point)] 20 20 "g2").store.history.length = 1 := by
  have h := dragGesture_one_history_entry demoUI 10 10 20 20 [(⟨20, 20⟩ : Point)] "g2" "a"
    rfl rfl demoUI_hitTest (by decide) (by decide)
  refine ⟨h.1, ?_⟩
  rw [h.2.2]
  decide

end Dreamer
